import Mathlib

/-!
Verification of the tic-tac-toe program in `main.py`.

The board is a 3x3 grid of cells; a cell holds `" "` (empty), `"X"` or `"O"`.
We model a cell as `Option Mark` (`none` is the empty cell `" "`) and the
board as a function `Fin 3 → Fin 3 → Cell`.  Python list indexing
`self._board[row][col]` accepts any integer index `i` with `-3 ≤ i ≤ 2`
(negative indices wrap around) and raises `IndexError` otherwise; this is
captured by `pyWrap`.  Exceptions are modelled by `Except PyError` /
explicit error results, and mutation by returning the new board.
-/

namespace TicTacToe

/-- The two player marks, `"X"` and `"O"` (`PLAYERS_VALUES` in the source). -/
inductive Mark where
  | X
  | O
deriving DecidableEq

/-- A cell of the grid: `none` models the empty cell `" "`. -/
abbrev Cell := Option Mark

/-- The 3x3 grid `Board._board`. -/
abbrev Board := Fin 3 → Fin 3 → Cell

/-- The board created by `Board.__post_init__`: all nine cells empty. -/
def emptyBoard : Board := fun _ _ => none

/-- The Python exceptions that the program can raise:
`CellIsNotEmptyError` (the game's own "invalid move" error), and the
built-in `IndexError`, `UnboundLocalError` and `EOFError`. -/
inductive PyError where
  | cellIsNotEmpty
  | indexError
  | unboundLocal
  | eofError
deriving DecidableEq

/-- Python list indexing on a list of length 3: index `i` with `0 ≤ i ≤ 2`
is used as is, `-3 ≤ i ≤ -1` wraps to `i + 3`, anything else raises
`IndexError` (modelled as `none`). -/
def pyWrap (i : Int) : Option (Fin 3) :=
  if h : 0 ≤ i ∧ i < 3 then some ⟨i.toNat, by omega⟩
  else if h' : -3 ≤ i ∧ i < 0 then some ⟨(i + 3).toNat, by omega⟩
  else none

/-- Source `Board.is_full`: `all(all(spot != " " for spot in row) for row in self._board)`. -/
def is_full (b : Board) : Bool :=
  (List.finRange 3).all fun i => (List.finRange 3).all fun j => decide (¬ b i j = none)

/-- Source `Board.is_cell_empty`: evaluates `self._board[row][col] == " "`.
The indexing itself can raise `IndexError`; the print side effect is
irrelevant to the result and is not modelled. -/
def is_cell_empty (b : Board) (row col : Int) : Except PyError Bool :=
  match pyWrap row, pyWrap col with
  | some r, some c => .ok (decide (b r c = none))
  | _, _ => .error .indexError

/-- Source `Board.get_empty_spots`:
`[(i, j) for i in range(3) for j in range(3) if self._board[i][j] == " "]`. -/
def get_empty_spots (b : Board) : List (Fin 3 × Fin 3) :=
  (List.finRange 3).flatMap fun i =>
    (List.finRange 3).flatMap fun j =>
      if b i j = none then [(i, j)] else []

/-- The successful branch of `Board.set_cell_value`:
`self._board[row][col] = value` for already-wrapped indices. -/
def place (b : Board) (r c : Fin 3) (value : Mark) : Board :=
  fun i j => if i = r ∧ j = c then some value else b i j

/-- Source `Board.set_cell_value`: first calls `is_cell_empty` (which may raise
`IndexError`); if the cell is occupied raises `CellIsNotEmptyError`;
otherwise assigns the cell and returns `(row, col)` unchanged.  The first
component of the result is the board after the call (unchanged on every
error path, since the assignment comes after the checks). -/
def set_cell_value (b : Board) (row col : Int) (value : Mark) :
    Board × Except PyError (Int × Int) :=
  match is_cell_empty b row col with
  | .error e => (b, .error e)
  | .ok false => (b, .error .cellIsNotEmpty)
  | .ok true =>
    match pyWrap row, pyWrap col with
    | some r, some c => (place b r c value, .ok (row, col))
    | _, _ => (b, .error .indexError)

/-- Source `Board.check_winner`: for each `i` in `range(3)` test row `i` and
column `i`, then the main diagonal and the anti-diagonal. -/
def check_winner (b : Board) (v : Mark) : Bool :=
  ((List.finRange 3).any fun i =>
    ((List.finRange 3).all fun j => decide (b i j = some v))
    || ((List.finRange 3).all fun j => decide (b j i = some v)))
  || (decide (b 0 0 = some v) && decide (b 1 1 = some v) && decide (b 2 2 = some v))
  || (decide (b 0 2 = some v) && decide (b 1 1 = some v) && decide (b 2 0 = some v))

/-- Spec-side description of a win, following the spec's words: at least
one of the 8 lines (3 rows, 3 columns, 2 diagonals) has all three cells
equal to the mark. -/
def winner_spec (b : Board) (v : Mark) : Prop :=
  (b 0 0 = some v ∧ b 0 1 = some v ∧ b 0 2 = some v)
  ∨ (b 1 0 = some v ∧ b 1 1 = some v ∧ b 1 2 = some v)
  ∨ (b 2 0 = some v ∧ b 2 1 = some v ∧ b 2 2 = some v)
  ∨ (b 0 0 = some v ∧ b 1 0 = some v ∧ b 2 0 = some v)
  ∨ (b 0 1 = some v ∧ b 1 1 = some v ∧ b 2 1 = some v)
  ∨ (b 0 2 = some v ∧ b 1 2 = some v ∧ b 2 2 = some v)
  ∨ (b 0 0 = some v ∧ b 1 1 = some v ∧ b 2 2 = some v)
  ∨ (b 0 2 = some v ∧ b 1 1 = some v ∧ b 2 0 = some v)

/-- Spec-side count of the cells of the board holding the mark `v`. -/
def markCount (b : Board) (v : Mark) : Nat :=
  (if b 0 0 = some v then 1 else 0) + (if b 0 1 = some v then 1 else 0)
  + (if b 0 2 = some v then 1 else 0) + (if b 1 0 = some v then 1 else 0)
  + (if b 1 1 = some v then 1 else 0) + (if b 1 2 = some v then 1 else 0)
  + (if b 2 0 = some v then 1 else 0) + (if b 2 1 = some v then 1 else 0)
  + (if b 2 2 = some v then 1 else 0)

theorem finRange3 : List.finRange 3 = [0, 1, 2] := by rfl

theorem check_winner_iff (b : Board) (v : Mark) :
    check_winner b v = true ↔ winner_spec b v := by
  unfold check_winner winner_spec
  simp only [finRange3, List.any_cons, List.any_nil, List.all_cons, List.all_nil,
    Bool.or_eq_true, Bool.and_eq_true, decide_eq_true_eq, Bool.or_false, Bool.and_true]
  constructor
  · rintro ((((h | h) | (h | h) | h | h) | ⟨⟨ha, hb⟩, hc⟩) | ⟨⟨ha, hb⟩, hc⟩)
    · exact Or.inl h
    · exact Or.inr (Or.inr (Or.inr (Or.inl h)))
    · exact Or.inr (Or.inl h)
    · exact Or.inr (Or.inr (Or.inr (Or.inr (Or.inl h))))
    · exact Or.inr (Or.inr (Or.inl h))
    · exact Or.inr (Or.inr (Or.inr (Or.inr (Or.inr (Or.inl h)))))
    · exact Or.inr (Or.inr (Or.inr (Or.inr (Or.inr (Or.inr (Or.inl ⟨ha, hb, hc⟩))))))
    · exact Or.inr (Or.inr (Or.inr (Or.inr (Or.inr (Or.inr (Or.inr ⟨ha, hb, hc⟩))))))
  · rintro (h | h | h | h | h | h | ⟨ha, hb, hc⟩ | ⟨ha, hb, hc⟩)
    · exact Or.inl (Or.inl (Or.inl (Or.inl h)))
    · exact Or.inl (Or.inl (Or.inr (Or.inl (Or.inl h))))
    · exact Or.inl (Or.inl (Or.inr (Or.inr (Or.inl h))))
    · exact Or.inl (Or.inl (Or.inl (Or.inr h)))
    · exact Or.inl (Or.inl (Or.inr (Or.inl (Or.inr h))))
    · exact Or.inl (Or.inl (Or.inr (Or.inr (Or.inr h))))
    · exact Or.inl (Or.inr ⟨⟨ha, hb⟩, hc⟩)
    · exact Or.inr ⟨⟨ha, hb⟩, hc⟩

/-- C1: `check_winner` returns true iff one of the 8 lines (3 rows,
3 columns, 2 diagonals) has all three cells equal to the given mark; it is
false on the empty board and on any board holding fewer than 3 cells equal
to that mark. -/
theorem check_winner_correct (b : Board) (v : Mark) :
    (check_winner b v = true ↔ winner_spec b v)
    ∧ check_winner emptyBoard v = false
    ∧ (markCount b v < 3 → check_winner b v = false) := by
  refine ⟨check_winner_iff b v, by cases v <;> rfl, ?_⟩
  intro hlt
  cases hcw : check_winner b v with
  | false => rfl
  | true =>
    exfalso
    have hs := (check_winner_iff b v).mp hcw
    rcases hs with ⟨h1, h2, h3⟩ | ⟨h1, h2, h3⟩ | ⟨h1, h2, h3⟩ | ⟨h1, h2, h3⟩
      | ⟨h1, h2, h3⟩ | ⟨h1, h2, h3⟩ | ⟨h1, h2, h3⟩ | ⟨h1, h2, h3⟩ <;>
      (simp [markCount, h1, h2, h3] at hlt; split_ifs at hlt <;> omega)

/-- Instantiation of `check_winner_correct` at a concrete board. -/
theorem check_winner_correct_witness :
    (check_winner emptyBoard Mark.X = true ↔ winner_spec emptyBoard Mark.X)
    ∧ check_winner emptyBoard Mark.X = false
    ∧ (markCount emptyBoard Mark.X < 3 → check_winner emptyBoard Mark.X = false) :=
  check_winner_correct emptyBoard Mark.X

theorem pyWrap_val (r : Fin 3) : pyWrap (r.val : Int) = some r := by
  fin_cases r <;> rfl

theorem pyWrap_out (i : Int) (h : i < -3 ∨ 2 < i) : pyWrap i = none := by
  unfold pyWrap
  split_ifs with h1 h2
  · exfalso; omega
  · exfalso; omega
  · rfl

theorem pyWrap_mod (i : Int) (h1 : -3 ≤ i) (h2 : i ≤ 2) : pyWrap i = pyWrap (i % 3) := by
  interval_cases i <;> rfl

/-- C2: placing into an occupied in-range cell fails with
`CellIsNotEmptyError` and leaves every cell of the board unchanged;
consequently a cell holding a mark is never changed by `set_cell_value`. -/
theorem set_cell_value_occupied :
    (∀ (b : Board) (r c : Fin 3) (v : Mark), b r c ≠ none →
      set_cell_value b (r.val : Int) (c.val : Int) v = (b, .error .cellIsNotEmpty))
    ∧ (∀ (b : Board) (row col : Int) (v : Mark) (i j : Fin 3) (m : Mark),
        b i j = some m → ((set_cell_value b row col v).1) i j = some m) := by
  constructor
  · intro b r c v h
    have hr := pyWrap_val r
    have hc := pyWrap_val c
    have hd : decide (b r c = none) = false := decide_eq_false h
    simp [set_cell_value, is_cell_empty, hr, hc, hd]
  · intro b row col v i j m hm
    rcases hice : is_cell_empty b row col with e | t
    · simp [set_cell_value, hice, hm]
    · cases t
      · simp [set_cell_value, hice, hm]
      · rcases hr : pyWrap row with _ | r
        · simp [set_cell_value, hice, hr, hm]
        · rcases hc : pyWrap col with _ | c
          · simp [set_cell_value, hice, hr, hc, hm]
          · have hempty : b r c = none := by
              simp [is_cell_empty, hr, hc] at hice
              exact hice
            simp only [set_cell_value, hice, hr, hc]
            by_cases hij : i = r ∧ j = c
            · exfalso
              obtain ⟨hi, hj⟩ := hij
              rw [hi, hj, hempty] at hm
              exact Option.noConfusion hm
            · simp [place, hij, hm]

/-- The board holding a single `X` at `(0, 0)`. -/
def boardX00 : Board := place emptyBoard 0 0 Mark.X

/-- Instantiation of `set_cell_value_occupied` at a concrete board. -/
theorem set_cell_value_occupied_witness :
    set_cell_value boardX00 0 0 Mark.O = (boardX00, .error .cellIsNotEmpty)
    ∧ (set_cell_value boardX00 2 2 Mark.O).1 0 0 = some Mark.X :=
  ⟨set_cell_value_occupied.1 boardX00 0 0 Mark.O (by decide),
   set_cell_value_occupied.2 boardX00 2 2 Mark.O 0 0 Mark.X rfl⟩

/-- C4 fails on the code: at `(3, 0)` the placement raises `IndexError`,
not `CellIsNotEmptyError`, and at `(-1, 0)` the row index wraps around
Python-style and the placement succeeds, writing cell `(2, 0)`. -/
theorem set_cell_value_out_of_range_counterexample :
    (set_cell_value emptyBoard 3 0 Mark.X).2 = .error .indexError
    ∧ (set_cell_value emptyBoard 3 0 Mark.X).2 ≠ .error .cellIsNotEmpty
    ∧ (set_cell_value emptyBoard (-1) 0 Mark.X).1 2 0 = some Mark.X
    ∧ emptyBoard 2 0 = none := by
  refine ⟨rfl, ?_, rfl, rfl⟩
  intro h
  simp [set_cell_value, is_cell_empty, pyWrap] at h

/-- C4 amended: a coordinate with row or col outside [-3, 2] fails with
`IndexError` — a distinct error kind — and leaves the board unchanged;
a coordinate in [-3, -1] wraps around Python-style (index mod 3), so the
board effect and the occupied-cell failure are those of the wrapped
in-range coordinate. -/
theorem set_cell_value_out_of_range_behavior :
    (∀ (b : Board) (row col : Int) (v : Mark),
      row < -3 ∨ 2 < row ∨ col < -3 ∨ 2 < col →
      set_cell_value b row col v = (b, .error .indexError))
    ∧ (∀ (b : Board) (row col : Int) (v : Mark),
        -3 ≤ row → row ≤ 2 → -3 ≤ col → col ≤ 2 →
        (set_cell_value b row col v).1 = (set_cell_value b (row % 3) (col % 3) v).1
        ∧ ((set_cell_value b row col v).2 = .error .cellIsNotEmpty
            ↔ (set_cell_value b (row % 3) (col % 3) v).2 = .error .cellIsNotEmpty)) := by
  constructor
  · intro b row col v h
    rcases h with h | h | h | h
    · have hr := pyWrap_out row (Or.inl h)
      simp [set_cell_value, is_cell_empty, hr]
    · have hr := pyWrap_out row (Or.inr h)
      simp [set_cell_value, is_cell_empty, hr]
    · have hc := pyWrap_out col (Or.inl h)
      rcases hr : pyWrap row with _ | r <;> simp [set_cell_value, is_cell_empty, hr, hc]
    · have hc := pyWrap_out col (Or.inr h)
      rcases hr : pyWrap row with _ | r <;> simp [set_cell_value, is_cell_empty, hr, hc]
  · intro b row col v h1 h2 h3 h4
    have hr := pyWrap_mod row h1 h2
    have hc := pyWrap_mod col h3 h4
    unfold set_cell_value is_cell_empty
    rw [hr, hc]
    rcases hrw : pyWrap (row % 3) with _ | r
    · simp [hrw]
    · rcases hcw : pyWrap (col % 3) with _ | c
      · simp [hrw, hcw]
      · by_cases hb : b r c = none <;> simp [hrw, hcw, hb]

/-- Instantiation of `set_cell_value_out_of_range_behavior` at concrete
coordinates. -/
theorem set_cell_value_out_of_range_behavior_witness :
    set_cell_value emptyBoard 4 7 Mark.O = (emptyBoard, .error .indexError)
    ∧ ((set_cell_value emptyBoard (-1) 0 Mark.O).1
        = (set_cell_value emptyBoard 2 0 Mark.O).1
      ∧ ((set_cell_value emptyBoard (-1) 0 Mark.O).2 = .error .cellIsNotEmpty
          ↔ (set_cell_value emptyBoard 2 0 Mark.O).2 = .error .cellIsNotEmpty)) :=
  ⟨set_cell_value_out_of_range_behavior.1 emptyBoard 4 7 Mark.O (by omega),
   set_cell_value_out_of_range_behavior.2 emptyBoard (-1) 0 Mark.O
     (by omega) (by omega) (by omega) (by omega)⟩

theorem is_full_iff (b : Board) : is_full b = true ↔ ∀ i j, b i j ≠ none := by
  unfold is_full
  simp only [finRange3, List.all_cons, List.all_nil, Bool.and_eq_true, Bool.and_true,
    decide_eq_true_eq]
  constructor
  · rintro ⟨⟨h00, h01, h02⟩, ⟨h10, h11, h12⟩, h20, h21, h22⟩ i j
    fin_cases i <;> fin_cases j <;> assumption
  · intro h
    exact ⟨⟨h 0 0, h 0 1, h 0 2⟩, ⟨h 1 0, h 1 1, h 1 2⟩, h 2 0, h 2 1, h 2 2⟩

theorem mem_get_empty_spots (b : Board) (p : Fin 3 × Fin 3) :
    p ∈ get_empty_spots b ↔ b p.1 p.2 = none := by
  obtain ⟨i, j⟩ := p
  unfold get_empty_spots
  simp only [List.mem_flatMap, List.mem_finRange, true_and]
  constructor
  · rintro ⟨i', j', hm⟩
    by_cases hb : b i' j' = none
    · rw [if_pos hb] at hm
      simp only [List.mem_singleton, Prod.mk.injEq] at hm
      obtain ⟨rfl, rfl⟩ := hm
      exact hb
    · rw [if_neg hb] at hm
      exact absurd hm (List.not_mem_nil _)
  · intro h
    exact ⟨i, j, by simp [h]⟩

/-- The target cell of a move of the turn loop. -/
def coordOf (m : Fin 3 × Fin 3 × Mark) : Fin 3 × Fin 3 := (m.1, m.2.1)

/-- A sequence of valid placements: each move writes its mark into its
target cell through the success branch of `set_cell_value`
(cf. `set_cell_value_empty`). -/
def applyMoves (b : Board) : List (Fin 3 × Fin 3 × Mark) → Board
  | [] => b
  | m :: ms => applyMoves (place b m.1 m.2.1 m.2.2) ms

/-- On an empty target cell, `set_cell_value` is exactly `place` plus the
echoed coordinates: the success branch taken by every valid placement. -/
theorem set_cell_value_empty (b : Board) (r c : Fin 3) (v : Mark)
    (h : b r c = none) :
    set_cell_value b (r.val : Int) (c.val : Int) v
      = (place b r c v, .ok ((r.val : Int), (c.val : Int))) := by
  have hr := pyWrap_val r
  have hc := pyWrap_val c
  simp [set_cell_value, is_cell_empty, hr, hc, h]

theorem applyMoves_not_mem (ms : List (Fin 3 × Fin 3 × Mark)) (b : Board)
    (i j : Fin 3) (h : (i, j) ∉ ms.map coordOf) :
    applyMoves b ms i j = b i j := by
  induction ms generalizing b with
  | nil => rfl
  | cons m ms ih =>
    simp only [List.map_cons, List.mem_cons, not_or] at h
    obtain ⟨hne, htail⟩ := h
    simp only [applyMoves]
    rw [ih _ htail]
    unfold place
    have hcond : ¬ (i = m.1 ∧ j = m.2.1) := by
      intro hc
      obtain ⟨h1, h2⟩ := hc
      exact hne (Prod.ext h1 h2)
    simp [hcond]

theorem applyMoves_mem (ms : List (Fin 3 × Fin 3 × Mark)) (b : Board)
    (i j : Fin 3) (h : (i, j) ∈ ms.map coordOf) :
    ∃ v, applyMoves b ms i j = some v := by
  induction ms generalizing b with
  | nil => simp at h
  | cons m ms ih =>
    by_cases htail : (i, j) ∈ ms.map coordOf
    · simp only [applyMoves]
      exact ih _ htail
    · have hhead : (i, j) = coordOf m := by
        simp only [List.map_cons, List.mem_cons] at h
        tauto
      simp only [applyMoves]
      rw [applyMoves_not_mem ms _ i j htail]
      refine ⟨m.2.2, ?_⟩
      have h1 : i = m.1 := congrArg Prod.fst hhead
      have h2 : j = m.2.1 := congrArg Prod.snd hhead
      unfold place
      simp [h1, h2]

/-- C6: starting from the empty board, after a sequence of valid
placements on pairwise-distinct cells the board is full iff exactly 9
placements were made; equivalently, `is_full` holds iff no cell is empty. -/
theorem is_full_after_placements (ms : List (Fin 3 × Fin 3 × Mark))
    (h : (ms.map coordOf).Nodup) :
    (is_full (applyMoves emptyBoard ms) = true ↔ ms.length = 9)
    ∧ (is_full (applyMoves emptyBoard ms) = true
        ↔ ∀ i j, applyMoves emptyBoard ms i j ≠ none) := by
  refine ⟨?_, is_full_iff _⟩
  rw [is_full_iff]
  constructor
  · intro hall
    have hmem : ∀ p : Fin 3 × Fin 3, p ∈ ms.map coordOf := by
      intro p
      by_contra hmemn
      exact hall p.1 p.2 (applyMoves_not_mem ms emptyBoard p.1 p.2 (by simpa using hmemn))
    have huniv : (ms.map coordOf).toFinset = Finset.univ :=
      Finset.eq_univ_iff_forall.mpr fun p => List.mem_toFinset.mpr (hmem p)
    have hcard := List.toFinset_card_of_nodup h
    rw [huniv] at hcard
    have hnine : (ms.map coordOf).length = 9 := by
      rw [← hcard]
      simp [Finset.card_univ]
    simpa using hnine
  · intro hlen i j hnone
    have hcard : (ms.map coordOf).toFinset.card = Fintype.card (Fin 3 × Fin 3) := by
      rw [List.toFinset_card_of_nodup h, List.length_map, hlen]
      simp
    have huniv := Finset.eq_univ_of_card _ hcard
    have hmem : (i, j) ∈ ms.map coordOf := by
      rw [← List.mem_toFinset, huniv]
      exact Finset.mem_univ _
    obtain ⟨v, hv⟩ := applyMoves_mem ms emptyBoard i j hmem
    rw [hv] at hnone
    exact Option.noConfusion hnone

/-- A canonical sequence of nine valid placements. -/
def moves9 : List (Fin 3 × Fin 3 × Mark) :=
  [(0, 0, Mark.X), (0, 1, Mark.O), (0, 2, Mark.X),
   (1, 0, Mark.O), (1, 1, Mark.X), (1, 2, Mark.O),
   (2, 0, Mark.X), (2, 1, Mark.O), (2, 2, Mark.X)]

/-- Instantiation of `is_full_after_placements` at a concrete sequence. -/
theorem is_full_after_placements_witness :
    is_full (applyMoves emptyBoard moves9) = true ↔ moves9.length = 9 :=
  (is_full_after_placements moves9 (by decide)).1

/-- C10: `is_full` and `get_empty_spots` characterize the same condition. -/
theorem is_full_iff_no_empty_spots (b : Board) :
    is_full b = true ↔ get_empty_spots b = [] := by
  rw [is_full_iff]
  constructor
  · intro h
    rw [List.eq_nil_iff_forall_not_mem]
    intro p hp
    exact h p.1 p.2 ((mem_get_empty_spots b p).mp hp)
  · intro h i j hnone
    have hm : (i, j) ∈ get_empty_spots b := (mem_get_empty_spots b (i, j)).mpr hnone
    rw [h] at hm
    exact List.not_mem_nil _ hm

/-- The nine coordinates in row-major order (spec-side). -/
def rowMajor : List (Fin 3 × Fin 3) :=
  [(0, 0), (0, 1), (0, 2), (1, 0), (1, 1), (1, 2), (2, 0), (2, 1), (2, 2)]

/-- Strict row-major precedence between coordinates (spec-side). -/
abbrev rowMajorLt (p q : Fin 3 × Fin 3) : Prop :=
  p.1 < q.1 ∨ (p.1 = q.1 ∧ p.2 < q.2)

theorem rowMajor_pairwise : rowMajor.Pairwise rowMajorLt := by decide

theorem get_empty_spots_eq_filter (b : Board) :
    get_empty_spots b = rowMajor.filter fun p => decide (b p.1 p.2 = none) := by
  have houter : ∀ f : Fin 3 → List (Fin 3 × Fin 3),
      (List.finRange 3).flatMap f = f 0 ++ (f 1 ++ (f 2 ++ [])) := by
    intro f
    rw [finRange3]
    rfl
  have hrow : ∀ i : Fin 3,
      ((List.finRange 3).flatMap fun j => if b i j = none then [(i, j)] else [])
        = [(i, 0), (i, 1), (i, 2)].filter fun p => decide (b p.1 p.2 = none) := by
    intro i
    by_cases h0 : b i 0 = none <;> by_cases h1 : b i 1 = none <;>
      by_cases h2 : b i 2 = none <;>
      simp [finRange3, h0, h1, h2, List.filter]
  have hsplit : rowMajor
      = ([(0, 0), (0, 1), (0, 2)] : List (Fin 3 × Fin 3))
        ++ ([(1, 0), (1, 1), (1, 2)] ++ ([(2, 0), (2, 1), (2, 2)] ++ [])) := rfl
  unfold get_empty_spots
  rw [houter]
  rw [hsplit, List.filter_append, List.filter_append, List.filter_append]
  rw [hrow 0, hrow 1, hrow 2]
  simp

/-- C8: `get_empty_spots` is exactly the row-major list of coordinates
filtered to the empty cells: membership is emptiness of the cell, and the
output is strictly increasing in row-major order. -/
theorem get_empty_spots_spec (b : Board) :
    get_empty_spots b = rowMajor.filter (fun p => decide (b p.1 p.2 = none))
    ∧ (∀ p : Fin 3 × Fin 3, p ∈ get_empty_spots b ↔ b p.1 p.2 = none)
    ∧ (get_empty_spots b).Pairwise rowMajorLt := by
  refine ⟨get_empty_spots_eq_filter b, fun p => mem_get_empty_spots b p, ?_⟩
  rw [get_empty_spots_eq_filter b]
  exact rowMajor_pairwise.filter _

/-- Source `CPUPlayer.move`: `random.choice(board.get_empty_spots())`.
`random.choice` draws an index below the length of the sequence; an
arbitrary draw of the random source is modelled by a natural number `k`
taken modulo the length.  On an empty sequence `random.choice` raises
`IndexError`, modelled by `none`. -/
def cpu_move (b : Board) (k : Nat) : Option (Fin 3 × Fin 3) :=
  (get_empty_spots b)[k % (get_empty_spots b).length]?

/-- C7: on a board with at least one empty cell, the CPU move is defined
and is an element of `get_empty_spots`, whatever the random source does. -/
theorem cpu_move_mem_empty_spots (b : Board) (k : Nat)
    (h : ∃ i j, b i j = none) :
    cpu_move b k ≠ none
    ∧ ∀ p, cpu_move b k = some p → p ∈ get_empty_spots b := by
  obtain ⟨i, j, hij⟩ := h
  have hmem : (i, j) ∈ get_empty_spots b := (mem_get_empty_spots b (i, j)).mpr hij
  have hpos : 0 < (get_empty_spots b).length :=
    List.length_pos.mpr (List.ne_nil_of_mem hmem)
  have hlt : k % (get_empty_spots b).length < (get_empty_spots b).length :=
    Nat.mod_lt _ hpos
  constructor
  · unfold cpu_move
    rw [List.getElem?_eq_getElem hlt]
    exact Option.some_ne_none _
  · intro p hp
    unfold cpu_move at hp
    rw [List.getElem?_eq_getElem hlt] at hp
    have hpe := Option.some.inj hp
    rw [← hpe]
    exact List.getElem_mem _

/-- Instantiation of `cpu_move_mem_empty_spots` at the empty board with
random draw 5. -/
theorem cpu_move_mem_empty_spots_witness :
    emptyBoard 0 0 = none
    ∧ cpu_move emptyBoard 5 ≠ none
    ∧ (1, 2) ∈ get_empty_spots emptyBoard :=
  ⟨rfl, (cpu_move_mem_empty_spots emptyBoard 5 ⟨0, 0, rfl⟩).1,
   (cpu_move_mem_empty_spots emptyBoard 5 ⟨0, 0, rfl⟩).2 (1, 2) rfl⟩

/-- The numeric value of a digit character, `none` otherwise. -/
def digitVal (c : Char) : Option Nat :=
  if c.isDigit then some (c.toNat - 48) else none

def parseDigitsAux : List Char → Nat → Option Nat
  | [], acc => some acc
  | c :: cs, acc =>
    match digitVal c with
    | some d => parseDigitsAux cs (acc * 10 + d)
    | none => none

def parseDigits : List Char → Option Nat
  | [] => none
  | cs => parseDigitsAux cs 0

/-- Python `int(token)`: an optional sign followed by at least one digit
(`int` also tolerates surrounding whitespace and underscores between
digits; the inputs considered here contain neither). -/
def parseIntToken : List Char → Option Int
  | '-' :: cs => (parseDigits cs).map fun n => -(n : Int)
  | '+' :: cs => (parseDigits cs).map fun n => (n : Int)
  | cs => (parseDigits cs).map fun n => (n : Int)

/-- Source line `row, col = map(int, input(message).split())`.  A line of input is
modelled, after `split()`, as the list of its whitespace-free tokens.
The unpacking succeeds iff there are exactly two tokens and both parse as
integers; every other case raises `ValueError`, which the `except` clause
catches (modelled as `none`). -/
def parseLine : List (List Char) → Option (Int × Int)
  | [t1, t2] =>
    match parseIntToken t1, parseIntToken t2 with
    | some a, some b => some (a, b)
    | _, _ => none
  | _ => none

/-- Source `Player.move`: the `while True` loop.  The first list is the queue of
remaining input lines (each a list of tokens); an exhausted queue models
end of input, where `input()` raises `EOFError`, uncaught here.  The
`Option (Int × Int)` argument is the current value of the Python locals
`row, col`: `none` before the first successful parse.  The `except`
branch lacks `continue`, so after a parse failure control falls through
to the `board.is_cell_empty(row, col)` test with the previous `row, col`
— or with unbound locals (`UnboundLocalError`) on the first iteration.
That test sits outside the `try`, so any `IndexError` it raises
propagates out of the loop. -/
def playerMove (b : Board) :
    List (List (List Char)) → Option (Int × Int) → Except PyError (Int × Int)
  | [], _ => .error .eofError
  | line :: rest, prev =>
    match parseLine line with
    | some rc =>
      match is_cell_empty b rc.1 rc.2 with
      | .error e => .error e
      | .ok true => .ok rc
      | .ok false => playerMove b rest (some rc)
    | none =>
      match prev with
      | none => .error .unboundLocal
      | some rc =>
        match is_cell_empty b rc.1 rc.2 with
        | .error e => .error e
        | .ok true => .ok rc
        | .ok false => playerMove b rest prev

/-- C3 fails on the code: on the very first prompt the malformed line
"a b" raises `UnboundLocalError` (the `except` branch lacks `continue`
and `row`, `col` are still unbound when `is_cell_empty` runs); the line
"3 0" raises `IndexError` out of the loop; and the line "-1 0" is
accepted and returned even though it is out of range. -/
theorem player_move_crash_eval :
    playerMove emptyBoard [[['a'], ['b']]] none = .error .unboundLocal
    ∧ playerMove emptyBoard [[['3'], ['0']]] none = .error .indexError
    ∧ playerMove emptyBoard [[['-', '1'], ['0']]] none = .ok (-1, 0) :=
  ⟨rfl, rfl, rfl⟩

/-- The players of a session.  `Player` (the human) and `CPUPlayer` are
the two concrete agents of `main`. -/
inductive Agent where
  | human
  | cpu
deriving DecidableEq

/-- The switch at the bottom of the main loop:
`human_player if isinstance(current_player, CPUPlayer) else cpu_player`. -/
def other : Agent → Agent
  | .human => .cpu
  | .cpu => .human

/-- The result of one iteration of the `while True` loop in `main`, given
the move the current player submitted: an uncaught exception, a win, a
draw, or the next awaiting-move state (new board, next player). -/
inductive StepResult where
  | crash (e : PyError)
  | wonBy (m : Mark)
  | draw
  | next (b : Board) (a : Agent)

/-- One iteration of the `while True` loop in `main`: apply the submitted
move via `set_cell_value` — any exception propagates, there is no
`try`/`except` in `main` — then check `check_winner`, then `is_full`,
else switch players. -/
def main_step (marks : Agent → Mark) (b : Board) (cur : Agent)
    (mv : Int × Int) : StepResult :=
  match set_cell_value b mv.1 mv.2 (marks cur) with
  | (_, .error e) => .crash e
  | (b', .ok _) =>
    if check_winner b' (marks cur) then .wonBy (marks cur)
    else if is_full b' then .draw
    else .next b' (other cur)

/-- The mark assignment where the human player holds X. -/
def marksHumanX : Agent → Mark
  | .human => Mark.X
  | .cpu => Mark.O

/-- C5 fails on the code: in the awaiting-move state of the human on a
board whose cell (0, 0) is occupied, the submitted move (0, 0) makes
`set_cell_value` raise `CellIsNotEmptyError`, and the exception
propagates out of the loop — the controller does not remain in the
awaiting-move state of the same agent. -/
theorem main_step_invalid_counterexample :
    main_step marksHumanX boardX00 Agent.human (0, 0)
      = StepResult.crash PyError.cellIsNotEmpty
    ∧ main_step marksHumanX boardX00 Agent.human (0, 0)
      ≠ StepResult.next boardX00 Agent.human := by
  refine ⟨rfl, ?_⟩
  intro h
  rw [show main_step marksHumanX boardX00 Agent.human (0, 0)
      = StepResult.crash PyError.cellIsNotEmpty from rfl] at h
  exact StepResult.noConfusion h

/-- C5 amended: whenever the submitted move makes the placement fail —
with `CellIsNotEmptyError` or any other exception — the loop body
propagates the exception: the session crashes rather than remaining in
the awaiting-move state.  (With the two agents of `main` this situation
is unreachable, since both pre-validate their moves.) -/
theorem main_step_invalid_escapes (marks : Agent → Mark) (b : Board)
    (cur : Agent) (mv : Int × Int) (e : PyError)
    (h : (set_cell_value b mv.1 mv.2 (marks cur)).2 = .error e) :
    main_step marks b cur mv = .crash e := by
  unfold main_step
  rcases hsc : set_cell_value b mv.1 mv.2 (marks cur) with ⟨b', r⟩
  rw [hsc] at h
  cases r with
  | error e' =>
    simp only at h
    rw [h]
  | ok val => simp at h

/-- Instantiation of `main_step_invalid_escapes` at a concrete state. -/
theorem main_step_invalid_escapes_witness :
    main_step marksHumanX boardX00 Agent.cpu (0, 0)
      = StepResult.crash PyError.cellIsNotEmpty :=
  main_step_invalid_escapes marksHumanX boardX00 Agent.cpu (0, 0)
    PyError.cellIsNotEmpty rfl

/-- Model of `random.shuffle` on the two-element list `list(PLAYERS_VALUES)`: the
boolean records whether the permutation swaps the two entries. -/
def swapIf (r : Bool) (p : Mark × Mark) : Mark × Mark :=
  if r then (p.2, p.1) else p

/-- Source `get_shuffled_players`: builds `["X", "O"]` and shuffles it once. -/
def get_shuffled_players (r : Bool) : Mark × Mark :=
  swapIf r (Mark.X, Mark.O)

/-- The start of `main`: `get_shuffled_players()` followed by a second
`random.shuffle`; `human_player` receives `shuffled_values[0]` and
`cpu_player` receives `shuffled_values[1]`. -/
def session_values (r1 r2 : Bool) : Mark × Mark :=
  swapIf r2 (get_shuffled_players r1)

/-- Source line `current_player = human_player if human_player.value == "X" else cpu_player`. -/
def first_agent (sv : Mark × Mark) : Agent :=
  if sv.1 = Mark.X then Agent.human else Agent.cpu

/-- The mark held by each agent for given session values. -/
def agent_mark (sv : Mark × Mark) : Agent → Mark
  | .human => sv.1
  | .cpu => sv.2

/-- C9: for every outcome of the two shuffles, the first agent to move
holds X, and the other agent — the holder of O — never moves first. -/
theorem first_agent_has_X : ∀ r1 r2 : Bool,
    agent_mark (session_values r1 r2) (first_agent (session_values r1 r2)) = Mark.X
    ∧ agent_mark (session_values r1 r2)
        (other (first_agent (session_values r1 r2))) = Mark.O := by
  decide

end TicTacToe
